import Mathlib

/-
Shallow embedding of `src/mary9/optimizer.py` (class `Mary9Optimizer`).

Conventions of the embedding:
- Python/NumPy floats are modelled by exact rationals (`ℚ`); the decimal
  constants of the source (`.4`, `.1`, `2.5`, `1e-4`, ...) are modelled by the
  exact rationals they denote.  All concrete inputs used in theorems below are
  far from rounding ties, so float and exact arithmetic agree there.
- A fitness value is `Option ℚ`: `none` stands for NaN (a failed evaluation).
  Comparisons mirror IEEE semantics: every `<` involving NaN is false.
- `np.nanmin` / `np.nanpercentile` are modelled by `nanmin` / `nanpercentile5`
  (NaN filtered out, `none` when no real value remains).
- Statements that can raise in Python (`raise ValueError`, list `IndexError`,
  an unbound local variable, i.e. `NameError`) are modelled with `Except`.
- External collaborators (`Sampler.select_subsample`,
  `Sampler.select_weakest_sample`, the local solver) are out of scope per the
  spec; their outputs (chosen indices, weakest indices, final search results)
  are inputs of the embedded functions.
-/

namespace Mary9

/-- NaN-aware strict `<` of Python floats: any comparison with NaN is false.
Models `a < b` on fitness values in `_share_knowledge`. -/
def ltF : Option ℚ → Option ℚ → Bool
  | some a, some b => decide (a < b)
  | _, _ => false

/-- NaN-aware `<=` of Python floats with NaN sorted last, matching the place
`np.argsort` gives NaN entries. Used to model the final ranking. -/
def leF : Option ℚ → Option ℚ → Bool
  | some a, some b => decide (a ≤ b)
  | some _, none => true
  | none, some _ => false
  | none, none => true

/-- `np.nanmin`: minimum ignoring NaN entries; NaN (`none`) when no real value
is present.  (On an empty list NumPy raises; callers below model that.) -/
def nanmin (l : List (Option ℚ)) : Option ℚ :=
  l.foldl (fun acc v =>
    match acc, v with
    | none, w => w
    | some a, none => some a
    | some a, some b => some (min a b)) none

/-- The non-NaN values of a fitness list. -/
def realVals (l : List (Option ℚ)) : List ℚ := l.filterMap id

/-- `np.nanpercentile(l, q=5)`: drop NaN, sort ascending, linear
interpolation at rank `(n-1) * 5 / 100`; NaN when no real value remains. -/
def nanpercentile5 (l : List (Option ℚ)) : Option ℚ :=
  let s := List.insertionSort (fun a b : ℚ => a ≤ b) (realVals l)
  match s with
  | [] => none
  | _ :: _ =>
    let n := s.length
    let h : ℚ := ((n : ℚ) - 1) / 20
    let i : ℕ := ⌊h⌋₊
    let lo := s.getD i 0
    let hi := s.getD (i + 1) lo
    some (lo + (h - (i : ℚ)) * (hi - lo))

/-- `np.round`: round half to even (banker's rounding), as an integer. -/
def roundHE (q : ℚ) : ℤ :=
  let f := ⌊q⌋
  let r := q - (f : ℚ)
  if r < 1 / 2 then f
  else if 1 / 2 < r then f + 1
  else if f % 2 = 0 then f else f + 1

/-! Budget allocator: `Mary9Optimizer._distribute_budget` (lines 86-193). -/

/-- Result record of `_distribute_budget`: the entries of `self.budgets`,
`self.popsizes`, `self.n_iterations`, and the derived counters. -/
structure Allocation where
  budgetTotal : ℤ
  budgetGlobal : ℤ
  budgetLocal : ℤ
  budgetRefinement : ℤ
  budgetCMAES : ℤ
  budgetDiffEvol : ℤ
  nRefinements : ℤ
  popsizeCMAES : ℤ
  nIterCMAES : ℤ
  popsizeDiffEvol : ℤ
  nIterDiffEvol : ℤ
  popsizeInitialRefinements : ℤ
  runtimeRefinements : List ℤ
  nLocalSearches : ℤ
  samplingCMAES : ℤ
  samplingDiffEvol : ℤ
  nIterGlobal : ℤ
deriving DecidableEq, Repr

/-- `lb_popsize_CMAES = np.max([2 * n_equivalent_multi_starts,
np.ceil(1.5 * n_parameters)])` (line 118). -/
def lbPopsizeCMAES (nMS nPar : ℕ) : ℤ :=
  max (2 * (nMS : ℤ)) ⌈(3 / 2 : ℚ) * (nPar : ℚ)⌉

/-- The (popsize, n_iter) resolution block, lines 122-132 (CMAES, with
`lb = lb_popsize_CMAES`, `maxIter = 500`, `lbIter = lb_iterations_CMAES = 50`)
and lines 138-148 (DiffEvol, with `lb = 2 * n_ms`, `maxIter = 150`,
`lbIter = 25`).  NOTE (faithful to the source): the fallback branch stores
`int(lb_iterations_...)` — the iteration lower bound — into the *popsize*
slot, not the popsize lower bound `lb`. -/
def resolveGlobal (budget lb maxIter lbIter : ℤ) : Except String (ℤ × ℤ) :=
  let tryPop := ⌊(budget : ℚ) / (maxIter : ℚ)⌋ - 1
  if lb < tryPop then
    .ok (tryPop, maxIter)
  else
    let nIter := ⌊(budget : ℚ) / (lb : ℚ)⌋
    if nIter < lbIter then
      .error ("No enough multi-starts specified to compute ensure exploration of parameter space")
    else
      .ok (lbIter, nIter)

/-- `_distribute_budget` (lines 86-193), with inputs
`nMS = n_equivalent_multi_starts`, `lsEq = local_search_equivalent`,
`gradEq = gradient_eval_equivalent` (already defaulted to `n_parameters` when
`None`, as `__init__` does), `nPar = n_parameters`. -/
def distributeBudget (nMS lsEq gradEq nPar : ℕ) : Except String Allocation := do
  let total : ℤ := (nMS : ℤ) * (gradEq : ℤ) * (lsEq : ℤ)
  let localSearchCost : ℤ := (gradEq : ℤ) * (lsEq : ℤ)
  let refinementCost : ℤ := (gradEq : ℤ) * 50
  let bGlobal := roundHE ((2 / 5 : ℚ) * (total : ℚ))
  let bLocal := roundHE ((2 / 5 : ℚ) * (total : ℚ))
  let bRefinement := total - roundHE ((4 / 5 : ℚ) * (total : ℚ))
  let bCMAES := roundHE ((2 / 5 : ℚ) * (bGlobal : ℚ))
  let bDE := bGlobal - roundHE ((2 / 5 : ℚ) * (bGlobal : ℚ))
  let nRef := roundHE ((bRefinement : ℚ) / (refinementCost : ℚ))
  let pc ← resolveGlobal bCMAES (lbPopsizeCMAES nMS nPar) 500 50
  let pd ← resolveGlobal bDE (2 * (nMS : ℤ)) 150 25
  let popInitRef := roundHE ((1 / 10 : ℚ) * (bGlobal : ℚ) / (refinementCost : ℚ))
  let nRuntime := nRef - popInitRef
  let r0 := roundHE 0
  let r1 := roundHE ((nRuntime : ℚ) / 3)
  let r2 := roundHE (2 * (nRuntime : ℚ) / 3)
  let r3 := roundHE (nRuntime : ℚ)
  let nLocal := roundHE ((bLocal : ℚ) / (localSearchCost : ℚ))
  let sampC := max (roundHE ((total : ℚ) / 1000)) ⌈(5 / 2 : ℚ) * (pc.1 : ℚ)⌉
  let sampD := max (roundHE ((total : ℚ) / 1000)) ⌊(5 / 2 : ℚ) * (pd.1 : ℚ)⌋
  return {
    budgetTotal := total
    budgetGlobal := bGlobal
    budgetLocal := bLocal
    budgetRefinement := bRefinement
    budgetCMAES := bCMAES
    budgetDiffEvol := bDE
    nRefinements := nRef
    popsizeCMAES := pc.1
    nIterCMAES := pc.2
    popsizeDiffEvol := pd.1
    nIterDiffEvol := pd.2
    popsizeInitialRefinements := popInitRef
    runtimeRefinements := [r1 - r0, r2 - r1, r3 - r2]
    nLocalSearches := nLocal
    samplingCMAES := sampC
    samplingDiffEvol := sampD
    nIterGlobal := max pc.2 pd.2 }

/-! Iteration scheduler: `_schedule_iterations` (lines 313-345). -/

/-- `[int(v) for v in np.linspace(0, g, n, endpoint=False)]` (lines 315-323):
the `n` evenly spaced values are `i * g / n`; `int` truncates, which on
nonnegative values is the floor, i.e. natural division. -/
def callsTo (g n : ℕ) : List ℕ :=
  (List.range n).map (fun i => i * g / n)

/-- Ceiling through floor, used to let `norm_num` evaluate `np.ceil` on
concrete rationals. -/
theorem ceilViaFloor (a : ℚ) : ⌈a⌉ = -⌊-a⌋ := by
  rw [Int.floor_neg, neg_neg]

/-! Knowledge exchange: `_share_knowledge` (lines 481-553). -/

/-- One member of a `Population`: normalized parameter vector `x` and a
fitness value (`none` = NaN). -/
structure Individual where
  x : List ℚ
  fitness : Option ℚ
deriving DecidableEq, Repr

/-- A population, as the ordered list of its `individuals`. -/
abbrev Population := List Individual

/-- Python-level failures `_share_knowledge` can raise: an unbound local
variable (`NameError`), an out-of-range index (`IndexError`), and
`np.nanmin` on an empty array (`ValueError`). -/
inductive PyErr where
  | nameError
  | indexError
  | valueError
deriving DecidableEq, Repr

/-- The three `update_threshold` policy tags of `_share_knowledge`
(`'only best'`, `'always if better'`, `'in between'`). -/
inductive UpdateThreshold where
  | onlyBest
  | alwaysIfBetter
  | inBetween
deriving DecidableEq, Repr

/-- `np.linalg.norm(a - b) ** 2`: squared Euclidean distance of two
parameter vectors (of the shared parameter dimension). -/
def sqDist (a b : List ℚ) : ℚ :=
  ((a.zip b).map (fun p => (p.1 - p.2) ^ 2)).sum

/-- The duplicate guard test `np.linalg.norm(individual_new.x -
tmp_ind_old.x) < 1e-4` (line 544), squared to stay in exact arithmetic:
`norm < 1e-4  ↔  norm² < 1e-8` for real vectors. -/
def closePoints (a b : List ℚ) : Bool :=
  decide (sqDist a b < 1 / 100000000)

/-- The mutable state of the exchange loop of `_share_knowledge`:
`update_from`, `update_to` (mutated in place in Python) and the running
counter `points_exchanged`. -/
structure ExchState where
  fromPop : Population
  dest : Population
  count : ℕ
deriving DecidableEq, Repr

/-- What one `_share_knowledge` call leaves behind: both populations, the
counter `points_exchanged` that line 552 logs, and the value the call
returns to its caller (`returned`): the Python function body has no
`return <value>` statement, so this is always `none` (Python `None`). -/
structure ShareResult where
  fromPop : Population
  dest : Population
  exchanged : ℕ
  returned : Option ℕ
deriving DecidableEq, Repr

/-- Threshold resolution, lines 531-538.  Under `'only best'` the snapshot
`fittest_old` is read; that local is only ever assigned inside the
`if only_if_new_best_point:` block (line 492), so when the gate is disabled
the read raises `NameError` (modelled by `fittestOldVar = none`).
(The `else: raise Exception(...)` arm has no counterpart because the policy
tag is an enumeration here.) -/
def resolveThreshold (thr : UpdateThreshold) (fittestOldVar : Option (Option ℚ))
    (goodValueOld : Option ℚ) (individualOld : Individual) :
    Except PyErr (Option ℚ) :=
  match thr with
  | .onlyBest =>
    match fittestOldVar with
    | none => .error .nameError
    | some v => .ok v
  | .alwaysIfBetter => .ok individualOld.fitness
  | .inBetween => .ok goodValueOld

/-- Body of the `for i_vector, _ in enumerate(suggested_points)` loop
(lines 522-550) for loop index `i` and chosen source index `idNew`:
look up the candidate and its replacement slot, resolve the threshold,
and replace the slot only if the candidate's fitness is strictly below the
threshold and no current destination member is within `1e-4` of it;
`deepcopy` makes the write a value copy. -/
def exchangeStep (fittestOldVar : Option (Option ℚ)) (goodValueOld : Option ℚ)
    (thr : UpdateThreshold) (weakest : List ℕ) (i idNew : ℕ)
    (st : ExchState) : Except PyErr ExchState :=
  match st.fromPop[idNew]? with
  | none => .error .indexError
  | some individualNew =>
    match weakest[i]? with
    | none => .error .indexError
    | some idOld =>
      match st.dest[idOld]? with
      | none => .error .indexError
      | some individualOld =>
        match resolveThreshold thr fittestOldVar goodValueOld individualOld with
        | .error e => .error e
        | .ok threshold =>
          if ltF individualNew.fitness threshold then
            if st.dest.any (fun old => closePoints individualNew.x old.x) then
              .ok st
            else
              .ok ⟨st.fromPop, st.dest.set idOld individualNew, st.count + 1⟩
          else
            .ok st

/-- The whole exchange loop: `exchangeStep` over the chosen source indices
(`selection_info['chosen']`), with the loop index threading through
`weakest_inds`. -/
def exchangeLoop (fittestOldVar : Option (Option ℚ)) (goodValueOld : Option ℚ)
    (thr : UpdateThreshold) (weakest : List ℕ) :
    ℕ → List ℕ → ExchState → Except PyErr ExchState
  | _, [], st => .ok st
  | i, idNew :: rest, st =>
    match exchangeStep fittestOldVar goodValueOld thr weakest i idNew st with
    | .error e => .error e
    | .ok st1 => exchangeLoop fittestOldVar goodValueOld thr weakest (i + 1) rest st1

/-- Lines 520-553 of `_share_knowledge`: compute
`good_value_old = np.nanpercentile(update_to.get_fitness(), q=5)`, run the
exchange loop, fall off the end of the function (return value `none`). -/
def shareBody (fromPop toPop : Population) (chosen weakest : List ℕ)
    (thr : UpdateThreshold) (fittestOldVar : Option (Option ℚ)) :
    Except PyErr ShareResult :=
  match exchangeLoop fittestOldVar
      (nanpercentile5 (toPop.map (fun ind => ind.fitness)))
      thr weakest 0 chosen ⟨fromPop, toPop, 0⟩ with
  | .error e => .error e
  | .ok st => .ok ⟨st.fromPop, st.dest, st.count, none⟩

/-- `_share_knowledge(update_from, update_to, update_popsize,
update_strategy, update_threshold, only_if_new_best_point)`, lines 481-553.
The external subsample selections are inputs: `chosen` is
`selection_info['chosen']` from `Sampler.select_subsample` (one entry per
suggested point) and `weakest` is `weakest_inds` from
`Sampler.select_weakest_sample`.  When the improvement gate is enabled, the
NaN-aware bests are compared first and the call returns early (destination
untouched, nothing exchanged) unless the source best strictly improves;
`np.nanmin` of an empty fitness list raises `ValueError`. -/
def shareKnowledge (fromPop toPop : Population) (chosen weakest : List ℕ)
    (thr : UpdateThreshold) (onlyIfNewBestPoint : Bool) :
    Except PyErr ShareResult :=
  if onlyIfNewBestPoint then
    match toPop, fromPop with
    | [], _ => .error .valueError
    | _ :: _, [] => .error .valueError
    | t0 :: ttl, f0 :: ftl =>
      let fittestOld := nanmin ((t0 :: ttl).map (fun ind => ind.fitness))
      let fittestNew := nanmin ((f0 :: ftl).map (fun ind => ind.fitness))
      if ltF fittestNew fittestOld then
        shareBody (f0 :: ftl) (t0 :: ttl) chosen weakest thr (some fittestOld)
      else
        .ok ⟨f0 :: ftl, t0 :: ttl, 0, none⟩
  else
    shareBody fromPop toPop chosen weakest thr none

/-! Final search: `_perform_final_search` (lines 555-585). -/

/-- One local-solver outcome of the final stage: the parameter vector
`tmp_result.x` and the objective value `tmp_result.fval` (`none` = NaN). -/
structure FinalResult where
  x : List ℚ
  fval : Option ℚ
deriving DecidableEq, Repr

/-- The ranking order of the final stage: ascending objective value,
NaN-aware with NaN last, exactly where `np.argsort` places NaN entries. -/
def finalOrder (a b : FinalResult) : Prop := leF a.fval b.fval = true

instance : DecidableRel finalOrder := fun a b => by
  unfold finalOrder
  infer_instance

instance : IsTotal FinalResult finalOrder := by
  constructor
  intro a b
  unfold finalOrder leF
  rcases a.fval with _ | x <;> rcases b.fval with _ | y <;> simp
  exact le_total x y

instance : IsTrans FinalResult finalOrder := by
  constructor
  intro a b c
  unfold finalOrder leF
  rcases a.fval with _ | x <;> rcases b.fval with _ | y <;>
    rcases c.fval with _ | z <;> simp
  exact le_trans

/-- Lines 583-585: `ordering = np.argsort(np.array(final_fvals))` followed
by gathering `final_results` in that order, i.e. the result list sorted
ascending by objective value (each result keeping its own vector). -/
def sortFinalResults (rs : List FinalResult) : List FinalResult :=
  List.insertionSort finalOrder rs

/-! Helper lemmas about the exchange loop. -/

/-- Reading any slot of a list after a single-slot write yields the old
entry or the written value. -/
theorem get?_set_cases {α : Type} (l : List α) (n : ℕ) (a : α) (j : ℕ) :
    (l.set n a)[j]? = l[j]? ∨ (l.set n a)[j]? = some a := by
  induction l generalizing n j with
  | nil => simp
  | cons x xs ih =>
    cases n with
    | zero => cases j <;> simp
    | succ n =>
      cases j with
      | zero => simp
      | succ j => simpa using ih n j

/-- Case analysis on a successful `exchangeStep`: either the state is left
untouched, or exactly one destination slot is overwritten with a candidate
read from the source, the counter grows by one, and the candidate's fitness
is strictly below the resolved threshold (which under `'only best'` is the
`fittest_old` snapshot). -/
theorem exchangeStep_ok_spec (fv : Option (Option ℚ)) (gv : Option ℚ)
    (thr : UpdateThreshold) (weakest : List ℕ) (i idNew : ℕ)
    (st st' : ExchState)
    (h : exchangeStep fv gv thr weakest i idNew st = .ok st') :
    st'.fromPop = st.fromPop ∧
    ((st'.dest = st.dest ∧ st'.count = st.count) ∨
      ∃ ind idOld thrVal,
        st.fromPop[idNew]? = some ind ∧
        (thr = .onlyBest → fv = some thrVal) ∧
        ltF ind.fitness thrVal = true ∧
        st'.dest = st.dest.set idOld ind ∧
        st'.count = st.count + 1) := by
  unfold exchangeStep at h
  cases hn : st.fromPop[idNew]? with
  | none => simp [hn] at h
  | some ind =>
    simp only [hn] at h
    cases hw : weakest[i]? with
    | none => simp [hw] at h
    | some idOld =>
      simp only [hw] at h
      cases ho : st.dest[idOld]? with
      | none => simp [ho] at h
      | some indOld =>
        simp only [ho] at h
        cases ht : resolveThreshold thr fv gv indOld with
        | error e => simp [ht] at h
        | ok thrVal =>
          simp only [ht] at h
          by_cases hlt : ltF ind.fitness thrVal = true
          · rw [if_pos hlt] at h
            by_cases hdup : st.dest.any (fun old => closePoints ind.x old.x) = true
            · rw [if_pos hdup] at h
              cases h
              exact ⟨rfl, Or.inl ⟨rfl, rfl⟩⟩
            · rw [if_neg hdup] at h
              cases h
              refine ⟨rfl, Or.inr ⟨ind, idOld, thrVal, rfl, ?_, hlt, rfl, rfl⟩⟩
              intro hob
              subst hob
              unfold resolveThreshold at ht
              cases fv with
              | none => simp at ht
              | some v => simpa using ht
          · rw [if_neg hlt] at h
            cases h
            exact ⟨rfl, Or.inl ⟨rfl, rfl⟩⟩

/-- Master lemma for a successful exchange loop run: the source population
is never written; the counter grows by at most one per candidate; every
destination slot is either untouched or holds a copy of a chosen source
candidate whose fitness beat the resolved threshold (under `'only best'`:
the `fittest_old` snapshot passed in). -/
theorem exchangeLoop_ok_spec (fv : Option (Option ℚ)) (gv : Option ℚ)
    (thr : UpdateThreshold) (weakest : List ℕ) :
    ∀ (cands : List ℕ) (i : ℕ) (st st' : ExchState),
    exchangeLoop fv gv thr weakest i cands st = .ok st' →
    st'.fromPop = st.fromPop ∧
    st'.count ≤ st.count + cands.length ∧
    (∀ (j : ℕ), st'.dest[j]? = st.dest[j]? ∨
      ∃ c ∈ cands, ∃ ind, st.fromPop[c]? = some ind ∧
        st'.dest[j]? = some ind ∧
        (∀ F, thr = .onlyBest → fv = some F → ltF ind.fitness F = true)) := by
  intro cands
  induction cands with
  | nil =>
    intro i st st' h
    unfold exchangeLoop at h
    cases h
    exact ⟨rfl, by simp, fun j => Or.inl rfl⟩
  | cons c rest ih =>
    intro i st st' h
    unfold exchangeLoop at h
    cases hstep : exchangeStep fv gv thr weakest i c st with
    | error e => rw [hstep] at h; exact absurd h (by simp)
    | ok st1 =>
      rw [hstep] at h
      obtain ⟨ihFrom, ihCount, ihDest⟩ := ih (i + 1) st1 st' h
      obtain ⟨stepFrom, stepCases⟩ :=
        exchangeStep_ok_spec fv gv thr weakest i c st st1 hstep
      refine ⟨ihFrom.trans stepFrom, ?_, ?_⟩
      · rcases stepCases with ⟨_, hcnt⟩ | ⟨_, _, _, _, _, _, _, hcnt⟩ <;>
        · rw [hcnt] at ihCount
          simpa [List.length_cons] using Nat.le_trans ihCount (by omega)
      · intro j
        rcases ihDest j with hsame | ⟨c', hc', ind, hind, hget, hfit⟩
        · rcases stepCases with ⟨hdest, _⟩ | ⟨ind, idOld, thrVal, hind, hob, hlt, hdest, _⟩
          · rw [hdest] at hsame
            exact Or.inl hsame
          · rw [hdest] at hsame
            rcases get?_set_cases st.dest idOld ind j with hkeep | hnew
            · exact Or.inl (hsame.trans hkeep)
            · refine Or.inr ⟨c, List.mem_cons_self c rest, ind, hind,
                hsame.trans hnew, ?_⟩
              intro F hthr hfv
              have := hob hthr
              rw [hfv] at this
              cases this
              exact hlt
        · exact Or.inr ⟨c', List.mem_cons_of_mem c hc', ind,
            stepFrom ▸ hind, hget, hfit⟩

/-- Master lemma for a successful `shareKnowledge` call, shared by the
claims below: the source population comes back unchanged; at most one
replacement happens per chosen candidate; every destination slot is either
exactly the slot the call started with or a copy of a chosen source
candidate, which under the `'only best'` policy with the gate enabled beat
the destination's best-fitness snapshot taken at the start of the call. -/
theorem shareKnowledge_ok_spec (fp tp : Population) (chosen weakest : List ℕ)
    (thr : UpdateThreshold) (gate : Bool) (r : ShareResult)
    (h : shareKnowledge fp tp chosen weakest thr gate = .ok r) :
    r.fromPop = fp ∧
    r.exchanged ≤ chosen.length ∧
    r.returned = none ∧
    (∀ (j : ℕ), r.dest[j]? = tp[j]? ∨
      ∃ c ∈ chosen, ∃ ind, fp[c]? = some ind ∧
        r.dest[j]? = some ind ∧
        (thr = .onlyBest → gate = true →
          ltF ind.fitness (nanmin (tp.map (fun q => q.fitness))) = true)) := by
  unfold shareKnowledge at h
  cases gate with
  | false =>
    simp only [Bool.false_eq_true, if_false] at h
    unfold shareBody at h
    cases hloop : exchangeLoop none
        (nanpercentile5 (tp.map (fun ind => ind.fitness))) thr weakest 0 chosen
        ⟨fp, tp, 0⟩ with
    | error e => rw [hloop] at h; exact absurd h (by simp)
    | ok st =>
      rw [hloop] at h
      cases h
      obtain ⟨hFrom, hCount, hDest⟩ :=
        exchangeLoop_ok_spec none _ thr weakest chosen 0 ⟨fp, tp, 0⟩ st hloop
      refine ⟨hFrom, by simpa using hCount, rfl, ?_⟩
      intro j
      rcases hDest j with hsame | ⟨c, hc, ind, hind, hget, _⟩
      · exact Or.inl hsame
      · exact Or.inr ⟨c, hc, ind, hind, hget, fun _ hgate => by cases hgate⟩
  | true =>
    simp only [if_true] at h
    cases tp with
    | nil => exact absurd h (by simp)
    | cons t0 ttl =>
      cases fp with
      | nil => exact absurd h (by simp)
      | cons f0 ftl =>
        simp only at h
        by_cases hgate : ltF (nanmin ((f0 :: ftl).map (fun ind => ind.fitness)))
            (nanmin ((t0 :: ttl).map (fun ind => ind.fitness))) = true
        · rw [if_pos hgate] at h
          unfold shareBody at h
          cases hloop : exchangeLoop
              (some (nanmin ((t0 :: ttl).map (fun ind => ind.fitness))))
              (nanpercentile5 ((t0 :: ttl).map (fun ind => ind.fitness)))
              thr weakest 0 chosen ⟨f0 :: ftl, t0 :: ttl, 0⟩ with
          | error e => rw [hloop] at h; exact absurd h (by simp)
          | ok st =>
            rw [hloop] at h
            cases h
            obtain ⟨hFrom, hCount, hDest⟩ :=
              exchangeLoop_ok_spec _ _ thr weakest chosen 0 ⟨f0 :: ftl, t0 :: ttl, 0⟩ st hloop
            refine ⟨hFrom, by simpa using hCount, rfl, ?_⟩
            intro j
            rcases hDest j with hsame | ⟨c, hc, ind, hind, hget, hfit⟩
            · exact Or.inl hsame
            · exact Or.inr ⟨c, hc, ind, hind, hget,
                fun hthr _ => hfit _ hthr rfl⟩
        · rw [if_neg hgate] at h
          cases h
          exact ⟨rfl, by simp, rfl, fun j => Or.inl rfl⟩

/-! Claim theorems. -/

/-- C1 (claim refuted by the code, code bug): the claim says that for every
accepted input and each global heuristic, resolved popsize × resolved
iterations is at most that heuristic's sub-budget.  At the accepted input
`n_equivalent_multi_starts = 10`, `local_search_equivalent = 500`,
`gradient_eval_equivalent = 5`, `n_parameters = 5`, the allocator raises no
error, resolves the CMAES sub-budget to 4000 and the CMAES pair to
popsize 50 and 200 iterations, and 50 × 200 = 10000 > 4000.  (Root cause:
the fallback branch stores the iteration lower bound 50 into the popsize
slot instead of the popsize lower bound; see C2.) -/
theorem c1_budget_product_violated :
    (distributeBudget 10 500 5 5).map
        (fun a => (a.budgetCMAES, a.popsizeCMAES, a.nIterCMAES)) =
      .ok (4000, 50, 200) ∧ ¬ ((50 : ℤ) * 200 ≤ 4000) := by
  constructor
  · norm_num [distributeBudget, resolveGlobal, lbPopsizeCMAES, roundHE,
      bind, Except.bind, pure, Except.pure, Except.map, sup_eq_max, max_def,
      ceilViaFloor]
  · norm_num

/-- C2 (claim refuted by the code, code bug): the claim says that in the
fallback case the popsize resolves to the heuristic-specific minimum popsize
bound and the iterations to `floor(sub_budget / min_popsize)`.  At the input
`(10, 500, 5, 5)` the CMAES fallback is taken (popsize attempt
`floor(4000/500) - 1 = 7` does not clear the bound 20, and
`floor(4000/20) = 200 ≥ 50` clears the iteration bound): the iteration count
200 matches the claim, but the resolved popsize is 50 — the constant
`lb_iterations_CMAES` — not the minimum popsize bound
`lb_popsize_CMAES = 20`. -/
theorem c2_fallback_popsize_bug :
    (distributeBudget 10 500 5 5).map
        (fun a => (a.popsizeCMAES, a.nIterCMAES)) = .ok (50, 200) ∧
    lbPopsizeCMAES 10 5 = 20 ∧ ⌊(4000 : ℚ) / 20⌋ = 200 ∧ ((50 : ℤ) ≠ 20) := by
  refine ⟨?_, ?_, by norm_num, by norm_num⟩
  · norm_num [distributeBudget, resolveGlobal, lbPopsizeCMAES, roundHE,
      bind, Except.bind, pure, Except.pure, Except.map, sup_eq_max, max_def,
      ceilViaFloor]
  · norm_num [lbPopsizeCMAES, ceilViaFloor, sup_eq_max, max_def]

/-- C3 (counterexample): the claim says each scheduled call-index equals the
*nearest integer* to the evenly spaced value `i * outer / n`.  For
`iterations_X = 3 ≤ outer_count = 5`, the spaced value at `i = 1` is
`5/3 ≈ 1.67`, whose nearest integer is 2, but the scheduler (`int()`
truncation) assigns index 1. -/
theorem c3_nearest_integer_refuted :
    callsTo 5 3 = [0, 1, 3] ∧ round ((1 * 5 : ℚ) / 3) = 2 ∧
    (callsTo 5 3)[1]? = some 1 ∧ (1 : ℤ) ≠ 2 := by
  refine ⟨by decide, ?_, by decide, by decide⟩
  norm_num [round_eq]

/-- C3 (amended): each of the `n` call-indices the scheduler assigns equals
the *floor* (truncation, as Python `int()`) of the corresponding evenly
spaced real value `i * outer / n` over `[0, outer)`, not the nearest
integer. -/
theorem c3_calls_are_floors (g n i : ℕ) (h : i < n) :
    (callsTo g n)[i]? = some ⌊((i * g : ℕ) : ℚ) / ((n : ℕ) : ℚ)⌋₊ := by
  have hfl : ⌊((i * g : ℕ) : ℚ) / ((n : ℕ) : ℚ)⌋₊ = (i * g) / n := by
    rw [Nat.floor_div_nat, Nat.floor_natCast]
  rw [hfl]
  simp [callsTo, List.getElem?_range h]

/-- C3 witness: concrete instance of `c3_calls_are_floors`. -/
theorem c3_calls_are_floors_witness :
    (callsTo 5 3)[1]? = some ⌊((1 * 5 : ℕ) : ℚ) / ((3 : ℕ) : ℚ)⌋₊ :=
  c3_calls_are_floors 5 3 1 (by decide)

/-- C4 (counterexample): the claim says the knowledge-exchange operation
*returns to its caller* the number of replaced slots.  The Python function
has no `return <value>` statement: on a call that performs one replacement
it still returns `None`, not `1`. -/
theorem c4_returns_none_refuted :
    shareKnowledge [⟨[0], some 1⟩] [⟨[1], some 9⟩, ⟨[2], some 3⟩]
        [0] [0] .onlyBest true =
      .ok ⟨[⟨[0], some 1⟩], [⟨[0], some 1⟩, ⟨[2], some 3⟩], 1, none⟩ ∧
    (none : Option ℕ) ≠ some 1 := by
  refine ⟨?_, by simp⟩
  norm_num [shareKnowledge, shareBody, exchangeLoop, exchangeStep,
    resolveThreshold, ltF, nanmin, closePoints, sqDist]

/-- C4 (amended): the exchange only logs the replacement count; the count of
destination slots actually replaced during a call is between 0 and the
quota `k` (it equals the loop counter `points_exchanged`, bounded by the
number of chosen candidates, which is at most `k` by the sampler
interface), and the value returned to the caller is `None`. -/
theorem c4_replacement_count_bound (fp tp : Population)
    (chosen weakest : List ℕ) (thr : UpdateThreshold) (gate : Bool)
    (k : ℕ) (r : ShareResult) (hk : chosen.length ≤ k)
    (h : shareKnowledge fp tp chosen weakest thr gate = .ok r) :
    r.exchanged ≤ k ∧ r.returned = none := by
  obtain ⟨_, hcnt, hret, _⟩ := shareKnowledge_ok_spec fp tp chosen weakest thr gate r h
  exact ⟨le_trans hcnt hk, hret⟩

/-- C4 witness: concrete instance of `c4_replacement_count_bound`. -/
theorem c4_replacement_count_bound_witness :
    (⟨[⟨[0], some 1⟩], [⟨[0], some 1⟩, ⟨[2], some 3⟩], 1, none⟩ :
        ShareResult).exchanged ≤ 1 ∧
    (⟨[⟨[0], some 1⟩], [⟨[0], some 1⟩, ⟨[2], some 3⟩], 1, none⟩ :
        ShareResult).returned = none :=
  c4_replacement_count_bound [⟨[0], some 1⟩] [⟨[1], some 9⟩, ⟨[2], some 3⟩]
    [0] [0] .onlyBest true 1
    ⟨[⟨[0], some 1⟩], [⟨[0], some 1⟩, ⟨[2], some 3⟩], 1, none⟩ (by decide)
    (by norm_num [shareKnowledge, shareBody, exchangeLoop, exchangeStep,
      resolveThreshold, ltF, nanmin, closePoints, sqDist])

/-- C5 (counterexample): the claim says that under `'only best'` no
candidate whose fitness is not strictly below the destination's best
*at the moment of its replacement decision* is ever inserted.  In this run
(gate passed: source best 1 < destination best 9) the first candidate
(fitness 1) is inserted; at the second candidate's decision the
destination's current best is 1 and the candidate's fitness 5 is not below
it, yet the candidate is inserted into slot 1, because the code thresholds
against the call-start snapshot `fittest_old = 9`. -/
theorem c5_decision_moment_refuted :
    shareKnowledge [⟨[0], some 1⟩, ⟨[1/2], some 5⟩]
        [⟨[3/4], some 10⟩, ⟨[1/4], some 9⟩] [0, 1] [0, 1] .onlyBest true =
      .ok ⟨[⟨[0], some 1⟩, ⟨[1/2], some 5⟩],
        [⟨[0], some 1⟩, ⟨[1/2], some 5⟩], 2, none⟩ ∧
    exchangeStep (some (some 9)) (nanpercentile5 [some 10, some 9]) .onlyBest
        [0, 1] 0 0 ⟨[⟨[0], some 1⟩, ⟨[1/2], some 5⟩],
          [⟨[3/4], some 10⟩, ⟨[1/4], some 9⟩], 0⟩ =
      .ok ⟨[⟨[0], some 1⟩, ⟨[1/2], some 5⟩],
        [⟨[0], some 1⟩, ⟨[1/4], some 9⟩], 1⟩ ∧
    nanmin (([⟨[0], some 1⟩, ⟨[1/4], some 9⟩] : Population).map
        (fun q => q.fitness)) = some 1 ∧
    ltF (some 5) (some 1) = false ∧
    exchangeStep (some (some 9)) (nanpercentile5 [some 10, some 9]) .onlyBest
        [0, 1] 1 1 ⟨[⟨[0], some 1⟩, ⟨[1/2], some 5⟩],
          [⟨[0], some 1⟩, ⟨[1/4], some 9⟩], 1⟩ =
      .ok ⟨[⟨[0], some 1⟩, ⟨[1/2], some 5⟩],
        [⟨[0], some 1⟩, ⟨[1/2], some 5⟩], 2⟩ ∧
    ([⟨[0], some 1⟩, ⟨[1/2], some 5⟩] : Population)[1]? = some ⟨[1/2], some 5⟩ := by
  refine ⟨?_, ?_, by norm_num [nanmin], by norm_num [ltF], ?_, by simp⟩
  · norm_num [shareKnowledge, shareBody, exchangeLoop, exchangeStep,
      resolveThreshold, ltF, nanmin, closePoints, sqDist]
  · norm_num [exchangeStep, resolveThreshold, ltF, closePoints, sqDist]
  · norm_num [exchangeStep, resolveThreshold, ltF, closePoints, sqDist]

/-- C5 (amended): under the `'only best'` policy with the improvement gate
enabled, every destination slot after the call either is unchanged or holds
an inserted candidate whose fitness is strictly below the destination's
best fitness *as snapshotted at the start of the call* (`fittest_old`) —
the call-start snapshot, not the current best at each decision moment. -/
theorem c5_only_best_start_snapshot (fp tp : Population)
    (chosen weakest : List ℕ) (r : ShareResult)
    (h : shareKnowledge fp tp chosen weakest .onlyBest true = .ok r) :
    ∀ (j : ℕ) (ind : Individual), r.dest[j]? = some ind →
      tp[j]? = some ind ∨
      ltF ind.fitness (nanmin (tp.map (fun q => q.fitness))) = true := by
  intro j ind hj
  rcases (shareKnowledge_ok_spec fp tp chosen weakest .onlyBest true r h).2.2.2 j with
    hsame | ⟨c, hc, ind', hind', hget, hfit⟩
  · exact Or.inl (hsame ▸ hj)
  · rw [hj] at hget
    have hii : ind = ind' := Option.some.inj hget
    subst hii
    exact Or.inr (hfit rfl rfl)

/-- C5 witness: concrete instance of `c5_only_best_start_snapshot`. -/
theorem c5_only_best_start_snapshot_witness :
    ([⟨[1], some 9⟩, ⟨[2], some 3⟩] : Population)[0]? = some ⟨[0], some 1⟩ ∨
    ltF (Individual.fitness ⟨[0], some 1⟩)
      (nanmin (([⟨[1], some 9⟩, ⟨[2], some 3⟩] : Population).map
        (fun q => q.fitness))) = true :=
  c5_only_best_start_snapshot [⟨[0], some 1⟩] [⟨[1], some 9⟩, ⟨[2], some 3⟩]
    [0] [0] ⟨[⟨[0], some 1⟩], [⟨[0], some 1⟩, ⟨[2], some 3⟩], 1, none⟩
    (by norm_num [shareKnowledge, shareBody, exchangeLoop, exchangeStep,
      resolveThreshold, ltF, nanmin, closePoints, sqDist])
    0 ⟨[0], some 1⟩ (by simp)

/-- C6: with the improvement gate enabled, if the source population's
NaN-aware best fitness does not strictly improve on the destination's best,
the exchange performs zero replacements and the destination (and source)
population is returned completely unchanged. -/
theorem c6_gate_blocks_exchange (f0 t0 : Individual)
    (ftl ttl : List Individual) (chosen weakest : List ℕ)
    (thr : UpdateThreshold)
    (hgate : ltF (nanmin ((f0 :: ftl).map (fun ind => ind.fitness)))
        (nanmin ((t0 :: ttl).map (fun ind => ind.fitness))) = false) :
    shareKnowledge (f0 :: ftl) (t0 :: ttl) chosen weakest thr true =
      .ok ⟨f0 :: ftl, t0 :: ttl, 0, none⟩ := by
  have hgate2 : ltF (nanmin (f0.fitness :: ftl.map (fun ind => ind.fitness)))
      (nanmin (t0.fitness :: ttl.map (fun ind => ind.fitness))) = false := by
    simpa using hgate
  unfold shareKnowledge
  simp [hgate2]

/-- C6 witness: concrete instance of `c6_gate_blocks_exchange` (source best
5 does not improve on destination best 3). -/
theorem c6_gate_blocks_exchange_witness :
    shareKnowledge [⟨[0], some 5⟩] [⟨[1], some 3⟩] [0] [0] .onlyBest true =
      .ok ⟨[⟨[0], some 5⟩], [⟨[1], some 3⟩], 0, none⟩ :=
  c6_gate_blocks_exchange ⟨[0], some 5⟩ ⟨[1], some 3⟩ [] [] [0] [0] .onlyBest
    (by norm_num [ltF, nanmin])

/-- C7: the duplicate guard: if, at a candidate's replacement decision, the
destination population already contains a member within Euclidean distance
`1e-4` of the candidate, that candidate causes zero replacements — the
state (destination and counter) is returned unchanged and its assigned slot
is not overwritten.  (`exchangeStep` is the per-candidate body of the
`_share_knowledge` loop.) -/
theorem c7_duplicate_guard (fv : Option (Option ℚ)) (gv : Option ℚ)
    (thr : UpdateThreshold) (weakest : List ℕ) (i idNew : ℕ)
    (st : ExchState) (ind : Individual) (hnew : st.fromPop[idNew]? = some ind)
    (idOld : ℕ) (hw : weakest[i]? = some idOld)
    (oldInd : Individual) (hold : st.dest[idOld]? = some oldInd)
    (hthr : thr = .onlyBest → fv ≠ none)
    (hdup : ∃ old ∈ st.dest, closePoints ind.x old.x = true) :
    exchangeStep fv gv thr weakest i idNew st = .ok st := by
  have hany : st.dest.any (fun old => closePoints ind.x old.x) = true := by
    obtain ⟨o, ho1, ho2⟩ := hdup
    exact List.any_eq_true.mpr ⟨o, ho1, ho2⟩
  unfold exchangeStep
  simp only [hnew, hw, hold]
  cases hres : resolveThreshold thr fv gv oldInd with
  | error e =>
    cases thr with
    | onlyBest =>
      cases hfv : fv with
      | none => exact absurd hfv (hthr rfl)
      | some v => rw [hfv] at hres; simp [resolveThreshold] at hres
    | alwaysIfBetter => simp [resolveThreshold] at hres
    | inBetween => simp [resolveThreshold] at hres
  | ok threshold =>
    by_cases hlt : ltF ind.fitness threshold = true
    · simp [hlt, hany]
    · simp [hlt]

/-- C7 witness: concrete instance of `c7_duplicate_guard` (the destination
already holds the exact point `[0]`). -/
theorem c7_duplicate_guard_witness :
    exchangeStep none none .alwaysIfBetter [0] 0 0
        ⟨[⟨[0], some 1⟩], [⟨[0], some 5⟩], 0⟩ =
      .ok ⟨[⟨[0], some 1⟩], [⟨[0], some 5⟩], 0⟩ :=
  c7_duplicate_guard none none .alwaysIfBetter [0] 0 0
    ⟨[⟨[0], some 1⟩], [⟨[0], some 5⟩], 0⟩ ⟨[0], some 1⟩ (by simp)
    0 (by simp) ⟨[0], some 5⟩ (by simp) (by simp)
    ⟨⟨[0], some 5⟩, by simp, by norm_num [closePoints, sqDist]⟩

/-- C8: frame property of the exchange: after any successful call the
source population is exactly the one passed in (the loop only writes into
the destination), and every destination slot either still holds its
original entry or holds a value copy of a chosen source candidate
(`deepcopy` in the source; value semantics here). -/
theorem c8_source_preserved (fp tp : Population) (chosen weakest : List ℕ)
    (thr : UpdateThreshold) (gate : Bool) (r : ShareResult)
    (h : shareKnowledge fp tp chosen weakest thr gate = .ok r) :
    r.fromPop = fp ∧
    ∀ (j : ℕ), r.dest[j]? = tp[j]? ∨
      ∃ c ∈ chosen, ∃ ind, fp[c]? = some ind ∧ r.dest[j]? = some ind := by
  obtain ⟨h1, _, _, h4⟩ := shareKnowledge_ok_spec fp tp chosen weakest thr gate r h
  refine ⟨h1, fun j => ?_⟩
  rcases h4 j with hsame | ⟨c, hc, ind, h5, h6, _⟩
  · exact Or.inl hsame
  · exact Or.inr ⟨c, hc, ind, h5, h6⟩

/-- C8 witness: concrete instance of `c8_source_preserved`. -/
theorem c8_source_preserved_witness :
    (⟨[⟨[0], some 1⟩], [⟨[0], some 1⟩, ⟨[2], some 3⟩], 1, none⟩ :
        ShareResult).fromPop = [⟨[0], some 1⟩] ∧
    ∀ (j : ℕ),
      (⟨[⟨[0], some 1⟩], [⟨[0], some 1⟩, ⟨[2], some 3⟩], 1, none⟩ :
          ShareResult).dest[j]? =
        ([⟨[1], some 9⟩, ⟨[2], some 3⟩] : Population)[j]? ∨
      ∃ c ∈ [0], ∃ ind, ([⟨[0], some 1⟩] : Population)[c]? = some ind ∧
        (⟨[⟨[0], some 1⟩], [⟨[0], some 1⟩, ⟨[2], some 3⟩], 1, none⟩ :
            ShareResult).dest[j]? = some ind :=
  c8_source_preserved [⟨[0], some 1⟩] [⟨[1], some 9⟩, ⟨[2], some 3⟩]
    [0] [0] .onlyBest true
    ⟨[⟨[0], some 1⟩], [⟨[0], some 1⟩, ⟨[2], some 3⟩], 1, none⟩
    (by norm_num [shareKnowledge, shareBody, exchangeLoop, exchangeStep,
      resolveThreshold, ltF, nanmin, closePoints, sqDist])

/-- C9: the final stage returns the local-search results sorted ascending
by objective value (best first), each result keeping its own parameter
vector (the output is a permutation of the input results); in particular
for objective values `[3, 1, 2]` the output order is `[1, 2, 3]` with each
value still paired with its own vector. -/
theorem c9_final_ranking :
    (∀ rs : List FinalResult,
      List.Sorted finalOrder (sortFinalResults rs) ∧
      (sortFinalResults rs).Perm rs) ∧
    sortFinalResults [⟨[1], some 3⟩, ⟨[2], some 1⟩, ⟨[3], some 2⟩] =
      [⟨[2], some 1⟩, ⟨[3], some 2⟩, ⟨[1], some 3⟩] := by
  constructor
  · intro rs
    exact ⟨List.sorted_insertionSort finalOrder rs,
      List.perm_insertionSort finalOrder rs⟩
  · norm_num [sortFinalResults, List.insertionSort, List.orderedInsert,
      finalOrder, leF]

/-- C10: calling the exchange with the improvement gate disabled
(`only_if_new_best_point=False`) and the `'only best'` policy fails with an
unbound-variable error (`NameError`: `fittest_old` is only assigned inside
the gate-enabled branch) as soon as one candidate is processed, instead of
performing the exchange. -/
theorem c10_gate_disabled_only_best_name_error (fp tp : Population)
    (chosen weakest : List ℕ) (c : ℕ) (rest : List ℕ) (hc : chosen = c :: rest)
    (ind : Individual) (hind : fp[c]? = some ind)
    (w : ℕ) (hw : weakest[0]? = some w)
    (oldInd : Individual) (hold : tp[w]? = some oldInd) :
    shareKnowledge fp tp chosen weakest .onlyBest false = .error .nameError := by
  subst hc
  unfold shareKnowledge shareBody exchangeLoop exchangeStep
  simp [hind, hw, hold, resolveThreshold]

/-- C10 witness: concrete instance of
`c10_gate_disabled_only_best_name_error`. -/
theorem c10_gate_disabled_only_best_name_error_witness :
    shareKnowledge [⟨[0], some 1⟩] [⟨[1], some 2⟩] [0] [0] .onlyBest false =
      .error .nameError :=
  c10_gate_disabled_only_best_name_error [⟨[0], some 1⟩] [⟨[1], some 2⟩]
    [0] [0] 0 [] rfl ⟨[0], some 1⟩ (by simp) 0 (by simp) ⟨[1], some 2⟩ (by simp)

end Mary9
